import Mathlib

/-!
Verification of the declarative data-validation engine specified for the
Pydantic-Models_practice repository.  The repository's source files declare
schemas (Book, Cart, Address, User, Item, Order, Product, Transaction,
ShoppingList) together with their constraints and hook bodies; the validation
pipeline that interprets those declarations is not part of the source tree, so
the pipeline itself is modelled from the specification (sections 3, 4, 6 and 7
of the spec), while every schema constant, constraint parameter and hook body
below is transcribed from the corresponding source file.

Numeric convention: Python ints are `Int`, Python floats are `ℚ` (the example
programs only ever use finite decimal values, so rationals embed them exactly).
-/

set_option autoImplicit false

namespace PydanticSpec

/-- Modelled from the spec: the "structured-data" input tree of §6 — a JSON-like
value: string, integer, float, null, sequence, or mapping from field names. -/
inductive RawValue where
  | str (s : String)
  | int (n : Int)
  | float (q : ℚ)
  | null
  | list (xs : List RawValue)
  | dict (entries : List (String × RawValue))

/-- Modelled from the spec: the tagged ConstraintSpec variants of §3 that the
source schemas actually use (min-length, numeric range bounds, pattern-match,
custom-predicate). Each carries its parameters. -/
inductive ConstraintTag where
  | minLength (bound : Nat)
  | gtInt (bound : Int)
  | geRat (bound : ℚ)
  | leRat (bound : ℚ)
  | patternTag (pat : String)
  | custom (label : String)
deriving DecidableEq, Repr

/-- Modelled from the spec: the error-kind taxonomy of §7 — MissingRequired,
TypeMismatch, ConstraintViolation (sub-tagged by constraint kind), and
HookRejected with its message. -/
inductive ErrKind where
  | missingRequired
  | typeMismatch
  | constraintViolation (which : ConstraintTag)
  | hookRejected (message : String)
deriving DecidableEq, Repr

/-- Modelled from the spec: a ValidationError carries a field path (sequence of
field names / container indices, indices rendered as decimal strings) and an
error kind. -/
structure ValidationError where
  path : List String
  kind : ErrKind
deriving DecidableEq, Repr

/-- Modelled from the spec: a ValidationReport is an ordered sequence of
ValidationError; the empty report means success. -/
abbrev ValidationReport := List ValidationError

/-- First-match lookup of a field name in the raw input mapping. -/
def lookupField : List (String × RawValue) → String → Option RawValue
  | [], _ => none
  | (k, v) :: rest, name => if k = name then some v else lookupField rest name

/-- Mapping update used by before-hooks (Python dict assignment: replace the
existing binding or append a new one). -/
def setField : List (String × RawValue) → String → RawValue → List (String × RawValue)
  | [], name, v => [(name, v)]
  | (k, w) :: rest, name, v =>
      if k = name then (k, v) :: rest else (k, w) :: setField rest name v

/-- Value of a digit list read in base 10. -/
def digitsToNat (l : List Char) : Nat :=
  l.foldl (fun a c => a * 10 + (c.toNat - 48)) 0

/-- Modelled from the spec: strict textual-to-integer parse of §4.2 — the whole
string must parse (an optional leading minus sign followed by at least one
digit); any partial parse yields `none`. -/
def parseIntStrict (s : String) : Option Int :=
  match s.toList with
  | [] => none
  | c :: rest =>
      if c = '-' then
        if rest ≠ [] ∧ rest.all Char.isDigit then
          some (-(digitsToNat rest : Int))
        else none
      else
        if (c :: rest).all Char.isDigit then some ((digitsToNat (c :: rest) : Int))
        else none

/-- Split a character list at every `'.'` occurrence. -/
def splitDot : List Char → List (List Char)
  | [] => [[]]
  | c :: rest =>
      match splitDot rest with
      | [] => [[]]
      | g :: gs => if c = '.' then [] :: g :: gs else (c :: g) :: gs

/-- Unsigned decimal literal: digits, optionally followed by a dot and more
digits; both parts must be nonempty and all-digit. -/
def parseUnsignedDecimal (s : String) : Option ℚ :=
  match splitDot s.toList with
  | [w] =>
      if w ≠ [] ∧ w.all Char.isDigit then some ((digitsToNat w : ℚ))
      else none
  | [w, f] =>
      if w ≠ [] ∧ w.all Char.isDigit ∧ f ≠ [] ∧ f.all Char.isDigit then
        some ((digitsToNat w : ℚ) + (digitsToNat f : ℚ) / 10 ^ f.length)
      else none
  | _ => none

/-- Modelled from the spec: strict textual-to-float parse of §4.2 — whole-string
decimal literal with optional leading minus sign. -/
def parseDecimalStrict (s : String) : Option ℚ :=
  match s.toList with
  | '-' :: rest => (parseUnsignedDecimal (String.mk rest)).map Neg.neg
  | _ => parseUnsignedDecimal s

/-- Modelled from the spec: coercion into a string-declared field — pass-through
when already a string, otherwise TypeMismatch (`none`). -/
def coerceStr : RawValue → Option String
  | .str s => some s
  | _ => none

/-- Modelled from the spec: coercion into an int-declared field (§4.2) —
pass-through for ints, strict whole-string parse for strings, and never an
implicit float→int truncation. -/
def coerceInt : RawValue → Option Int
  | .int n => some n
  | .str s => parseIntStrict s
  | _ => none

/-- Modelled from the spec: coercion into a float-declared field — pass-through
for floats, lossless widening for ints, strict whole-string parse for strings. -/
def coerceFloat : RawValue → Option ℚ
  | .float q => some q
  | .int n => some ((n : ℚ))
  | .str s => parseDecimalStrict s
  | _ => none

/-- Coercion into a list-of-strings field: the raw value must be a sequence and
every element must coerce to a string. -/
def coerceStrList : RawValue → Option (List String)
  | .list xs => xs.mapM coerceStr
  | _ => none

/-- Coercion into an `Optional[int]` field: null passes through as `none`,
otherwise the int coercion applies. -/
def coerceOptInt : RawValue → Option (Option Int)
  | .null => some none
  | v => (coerceInt v).map some

/-- Modelled from the spec: full-string pattern match (§4.1) for the one pattern
family the source declares, `\d{n}` — the entire string must consist of exactly
`n` decimal digits; a matching substring embedded in longer text does not pass. -/
def fullMatchDigits (n : Nat) (s : String) : Bool :=
  s.length = n && s.toList.all Char.isDigit

/-- Constraint: `min_length` on a string field (violated when the character
count is below the bound). -/
def minLenStr (bound : Nat) : String → Option ConstraintTag := fun s =>
  if s.length < bound then some (.minLength bound) else none

/-- Constraint: `min_length` on a sequence field (violated when the element
count is below the bound). -/
def minLenList (bound : Nat) : List String → Option ConstraintTag := fun xs =>
  if xs.length < bound then some (.minLength bound) else none

/-- Constraint: `gt` on an int field (violated when the value is not strictly
greater than the bound). -/
def gtI (bound : Int) : Int → Option ConstraintTag := fun v =>
  if v ≤ bound then some (.gtInt bound) else none

/-- Constraint: `ge` on a float field (violated when the value is below the
inclusive lower bound). -/
def geQ (bound : ℚ) : ℚ → Option ConstraintTag := fun v =>
  if v < bound then some (.geRat bound) else none

/-- Constraint: `le` on a float field (violated when the value is above the
inclusive upper bound). -/
def leQ (bound : ℚ) : ℚ → Option ConstraintTag := fun v =>
  if bound < v then some (.leRat bound) else none

/-- Constraint: `pattern=\d{6}` on a string field, full-string semantics. -/
def patternDigits6 : String → Option ConstraintTag := fun s =>
  if fullMatchDigits 6 s then none else some (.patternTag "\\d{6}")

/-- Errors carried by a field result (empty for a success). -/
def errsOf {α : Type} : Except (List ValidationError) α → List ValidationError
  | .ok _ => []
  | .error es => es

/-- Modelled from the spec: §4.3 step 3 — run every ConstraintSpec of the field
in declared order, continuing past failures so every violated constraint on the
field is reported. -/
def evalConstraints {α : Type} (path : List String)
    (cs : List (α → Option ConstraintTag)) (v : α) : List ValidationError :=
  cs.filterMap fun c => (c v).map fun t => ⟨path, .constraintViolation t⟩

/-- Modelled from the spec: §4.3 step 4 — field-level validator hooks run in
declared order, each able to transform the value or reject with a message;
a rejection is HookRejected and halts further hooks for the field. -/
def runFieldHooks {α : Type} (path : List String) :
    List (α → Except String α) → α → Except (List ValidationError) α
  | [], v => .ok v
  | h :: rest, v =>
      match h v with
      | .error msg => .error [⟨path, .hookRejected msg⟩]
      | .ok v2 => runFieldHooks path rest v2

/-- Modelled from the spec: the Field Pipeline (§4.3) for a required field —
missing input is MissingRequired, a failed coercion is TypeMismatch and aborts
the field's remaining steps, then constraints (all evaluated) and field hooks. -/
def runField {α : Type} (input : List (String × RawValue)) (name : String)
    (coerce : RawValue → Option α) (cs : List (α → Option ConstraintTag))
    (hooks : List (α → Except String α)) : Except (List ValidationError) α :=
  match lookupField input name with
  | none => .error [⟨[name], .missingRequired⟩]
  | some raw =>
      match coerce raw with
      | none => .error [⟨[name], .typeMismatch⟩]
      | some v =>
          match evalConstraints [name] cs v with
          | [] => runFieldHooks [name] hooks v
          | e :: es => .error (e :: es)

/-- Modelled from the spec: the Field Pipeline for a field with a default —
absence of a value short-circuits the pipeline entirely and the default is used
as-is (§4.2); otherwise identical to `runField`. -/
def runFieldD {α : Type} (input : List (String × RawValue)) (name : String)
    (dflt : α) (coerce : RawValue → Option α) (cs : List (α → Option ConstraintTag))
    (hooks : List (α → Except String α)) : Except (List ValidationError) α :=
  match lookupField input name with
  | none => .ok dflt
  | some raw =>
      match coerce raw with
      | none => .error [⟨[name], .typeMismatch⟩]
      | some v =>
          match evalConstraints [name] cs v with
          | [] => runFieldHooks [name] hooks v
          | e :: es => .error (e :: es)

/-- Modelled from the spec: §4.3 step 5 for a singleton nested-schema field —
recurse into the nested Model Pipeline and prefix each resulting error's path
with this field's name. -/
def runNestedField {β : Type} (input : List (String × RawValue)) (name : String)
    (sub : List (String × RawValue) → Except ValidationReport β) :
    Except (List ValidationError) β :=
  match lookupField input name with
  | none => .error [⟨[name], .missingRequired⟩]
  | some (.dict entries) =>
      match sub entries with
      | .ok b => .ok b
      | .error es => .error (es.map fun e => ⟨name :: e.path, e.kind⟩)
  | some _ => .error [⟨[name], .typeMismatch⟩]

/-- Accumulate a list of per-element results, concatenating all errors (no
short-circuiting across elements). -/
def collectResults {β : Type} :
    List (Except (List ValidationError) β) → Except (List ValidationError) (List β)
  | [] => .ok []
  | r :: rest =>
      match r, collectResults rest with
      | .ok b, .ok bs => .ok (b :: bs)
      | a, b => .error (errsOf a ++ errsOf b)

/-- Modelled from the spec: §4.3 step 5 for a container-of-nested-schemas field —
validate each element depth-first, prefixing error paths with the field name and
the element index. -/
def runNestedListField {β : Type} (input : List (String × RawValue)) (name : String)
    (sub : List (String × RawValue) → Except ValidationReport β) :
    Except (List ValidationError) (List β) :=
  match lookupField input name with
  | none => .error [⟨[name], .missingRequired⟩]
  | some (.list xs) =>
      collectResults <| (xs.enum).map fun p =>
        match p.2 with
        | .dict entries =>
            match sub entries with
            | .ok b => .ok b
            | .error es => .error (es.map fun e => ⟨name :: toString p.1 :: e.path, e.kind⟩)
        | _ => .error [⟨[name, toString p.1], .typeMismatch⟩]
  | some _ => .error [⟨[name], .typeMismatch⟩]

/-- The Book record of src/Fields/problem1.py: `title: str(min_length=3)`,
`pages: int(gt=0)`, `price: float(ge=10, le=1000)`. -/
structure Book where
  title : String
  pages : Int
  price : ℚ
deriving DecidableEq, Repr

/-- Modelled from the spec: the Model Pipeline (§4.4) for the Book schema of
src/Fields/problem1.py — no model hooks, three fields validated independently
with all errors accumulated. -/
def validateBook (input : List (String × RawValue)) : Except ValidationReport Book :=
  let rTitle := runField input "title" coerceStr [minLenStr 3] []
  let rPages := runField input "pages" coerceInt [gtI 0] []
  let rPrice := runField input "price" coerceFloat [geQ 10, leQ 1000] []
  match rTitle, rPages, rPrice with
  | .ok t, .ok p, .ok pr => .ok ⟨t, p, pr⟩
  | a, b, c => .error (errsOf a ++ errsOf b ++ errsOf c)

/-- The Address record of src/Nested Models/p1.py: `street: str`, `city: str`,
`zip: str` with `pattern=\d{6}` (the Address of src/Nested Models/p3.py declares
the identical zip pattern). -/
structure Address where
  street : String
  city : String
  zip : String
deriving DecidableEq, Repr

/-- Modelled from the spec: the Model Pipeline for the Address schema of
src/Nested Models/p1.py. -/
def validateAddress (input : List (String × RawValue)) : Except ValidationReport Address :=
  let rStreet := runField input "street" coerceStr [] []
  let rCity := runField input "city" coerceStr [] []
  let rZip := runField input "zip" coerceStr [patternDigits6] []
  match rStreet, rCity, rZip with
  | .ok st, .ok ct, .ok z => .ok ⟨st, ct, z⟩
  | a, b, c => .error (errsOf a ++ errsOf b ++ errsOf c)

/-- The User record of src/Nested Models/p1.py: `name: str`, `email: EmailStr`,
`address: Address` (nested schema). -/
structure User where
  name : String
  email : String
  address : Address
deriving DecidableEq, Repr

/-- Modelled from the spec: the Model Pipeline for the User schema of
src/Nested Models/p1.py. Email-format validation is an external collaborator
(§6), supplied as the opaque custom predicate `emailOk`; the address field
recurses into the Address pipeline with path prefixing (§4.3 step 5). -/
def validateUser (emailOk : String → Bool) (input : List (String × RawValue)) :
    Except ValidationReport User :=
  let rName := runField input "name" coerceStr [] []
  let rEmail := runField input "email" coerceStr
    [fun s => if emailOk s then none else some (.custom "email")] []
  let rAddr := runNestedField input "address" validateAddress
  match rName, rEmail, rAddr with
  | .ok nm, .ok em, .ok ad => .ok ⟨nm, em, ad⟩
  | a, b, c => .error (errsOf a ++ errsOf b ++ errsOf c)

/-- The Item record of src/Nested Models/p2.py: `name: str`,
`price: int = Field(gt=0)`. -/
structure Item where
  name : String
  price : Int
deriving DecidableEq, Repr

/-- Modelled from the spec: the Model Pipeline for the Item schema of
src/Nested Models/p2.py. -/
def validateItem (input : List (String × RawValue)) : Except ValidationReport Item :=
  let rName := runField input "name" coerceStr [] []
  let rPrice := runField input "price" coerceInt [gtI 0] []
  match rName, rPrice with
  | .ok nm, .ok pr => .ok ⟨nm, pr⟩
  | a, b => .error (errsOf a ++ errsOf b)

/-- The Order record of src/Nested Models/p2.py: `order_id: int`,
`items: List[Item]`, `total: float`, plus the `check_total` after-hook. -/
structure Order where
  order_id : Int
  items : List Item
  total : ℚ
deriving DecidableEq, Repr

/-- The body of `Order.check_total` from src/Nested Models/p2.py: reject when
`total` is less than the sum of the item prices, otherwise return the instance
unchanged. -/
def checkTotal (o : Order) : Except String Order :=
  let total_price : Int := (o.items.map Item.price).sum
  if o.total < (total_price : ℚ) then
    .error "Total is less than the sum of items prices"
  else .ok o

/-- Modelled from the spec: the Model Pipeline for the Order schema of
src/Nested Models/p2.py — fields first (the items container recursing per
element), then, only when the report is empty, the constructed instance runs
the `check_total` after-hook; a hook rejection is a single whole-model error
with no field path and the instance is discarded (§4.4 steps 3–5). -/
def validateOrder (input : List (String × RawValue)) : Except ValidationReport Order :=
  let rId := runField input "order_id" coerceInt [] []
  let rItems := runNestedListField input "items" validateItem
  let rTotal := runField input "total" coerceFloat [] []
  match rId, rItems, rTotal with
  | .ok oid, .ok its, .ok t =>
      match checkTotal ⟨oid, its, t⟩ with
      | .ok o => .ok o
      | .error msg => .error [⟨[], .hookRejected msg⟩]
  | a, b, c => .error (errsOf a ++ errsOf b ++ errsOf c)

/-- The Transaction record of src/Validators/p5.py: `sender_balance: float`,
`amount: float`, `receiver_balance: float`. -/
structure Transaction where
  sender_balance : ℚ
  amount : ℚ
  receiver_balance : ℚ
deriving DecidableEq, Repr

/-- The body of the `amount_check` field validator from src/Validators/p5.py:
reject when the amount is not strictly positive. -/
def amountCheck (v : ℚ) : Except String ℚ :=
  if v ≤ 0 then .error "Amount must be > 0" else .ok v

/-- The body of the `validate_sender_balance` after-hook from
src/Validators/p5.py: reject with "Insufficient funds" when
`sender_balance - amount < 0`. -/
def validateSenderBalance (t : Transaction) : Except String Transaction :=
  if t.sender_balance - t.amount < 0 then .error "Insufficient funds" else .ok t

/-- Modelled from the spec: the Model Pipeline for the Transaction schema of
src/Validators/p5.py — the `amount_check` field validator runs inside the
amount field's pipeline, and the `validate_sender_balance` after-hook runs only
once the field report is empty (§4.4 step 3). -/
def validateTransaction (input : List (String × RawValue)) :
    Except ValidationReport Transaction :=
  let rSb := runField input "sender_balance" coerceFloat [] []
  let rAm := runField input "amount" coerceFloat [] [amountCheck]
  let rRb := runField input "receiver_balance" coerceFloat [] []
  match rSb, rAm, rRb with
  | .ok sb, .ok am, .ok rb =>
      match validateSenderBalance ⟨sb, am, rb⟩ with
      | .ok t => .ok t
      | .error msg => .error [⟨[], .hookRejected msg⟩]
  | a, b, c => .error (errsOf a ++ errsOf b ++ errsOf c)

/-- The Product record of src/Validators/p2.py: `name: str`, `price: float`. -/
structure Product where
  name : String
  price : ℚ
deriving DecidableEq, Repr

/-- Python's `str.strip()`: remove leading and trailing whitespace. -/
def pyStrip (s : String) : String :=
  String.mk (((s.toList.dropWhile Char.isWhitespace).reverse.dropWhile
    Char.isWhitespace).reverse)

/-- Python's `float(...)` builtin as used by Product's before-hook: floats and
ints pass through, strings are parsed as a decimal literal with surrounding
whitespace ignored; anything else fails. -/
def pyFloat : RawValue → Option ℚ
  | .float q => some q
  | .int n => some ((n : ℚ))
  | .str s => parseDecimalStrict (pyStrip s)
  | _ => none

/-- The body of `Product.process` from src/Validators/p2.py, a before-hook on
the raw mapping: `data["name"] = data["name"].strip()` then
`data["price"] = float(data["price"])`. Each fallible Python operation (key
lookup, `.strip()` on a non-string, `float(...)` failure) is a structured
rejection, following the spec's design note that exception-based rejection is
modelled as Result-returning hooks. -/
def productProcess (data : List (String × RawValue)) :
    Except String (List (String × RawValue)) :=
  match lookupField data "name" with
  | none => .error "KeyError: name"
  | some nv =>
      match nv with
      | .str s =>
          let data1 := setField data "name" (.str (pyStrip s))
          match lookupField data1 "price" with
          | none => .error "KeyError: price"
          | some pv =>
              match pyFloat pv with
              | none => .error "could not convert value to float"
              | some q => .ok (setField data1 "price" (.float q))
      | _ => .error "AttributeError: value has no strip method"

/-- Modelled from the spec: the Model Pipeline for the Product schema of
src/Validators/p2.py — the `process` before-hook rewrites the raw input (or
rejects outright, aborting before any field processing, §4.4 step 1), then the
two fields validate. -/
def validateProduct (input : List (String × RawValue)) : Except ValidationReport Product :=
  match productProcess input with
  | .error msg => .error [⟨[], .hookRejected msg⟩]
  | .ok data =>
      let rName := runField data "name" coerceStr [] []
      let rPrice := runField data "price" coerceFloat [] []
      match rName, rPrice with
      | .ok nm, .ok pr => .ok ⟨nm, pr⟩
      | a, b => .error (errsOf a ++ errsOf b)

/-- The ShoppingList record of src/typing_module/p1.py:
`items: List[str] = Field(min_length=2)`, `total_items: Optional[int] = None`,
plus the `set_total_items` after-hook. -/
structure ShoppingList where
  items : List String
  total_items : Option Int
deriving DecidableEq, Repr

/-- The body of `ShoppingList.set_total_items` from src/typing_module/p1.py:
overwrite `total_items` with the length of `items` and return the instance. -/
def setTotalItems (s : ShoppingList) : Except String ShoppingList :=
  .ok { s with total_items := some ((s.items.length : Int)) }

/-- Modelled from the spec: the Model Pipeline for the ShoppingList schema of
src/typing_module/p1.py — fields, then the `set_total_items` after-hook, which
mutates the derived `total_items` field of the constructed instance (§4.4
step 5). -/
def validateShoppingList (input : List (String × RawValue)) :
    Except ValidationReport ShoppingList :=
  let rItems := runField input "items" coerceStrList [minLenList 2] []
  let rTot := runFieldD input "total_items" none coerceOptInt [] []
  match rItems, rTot with
  | .ok xs, .ok t0 =>
      match setTotalItems ⟨xs, t0⟩ with
      | .ok s => .ok s
      | .error msg => .error [⟨[], .hookRejected msg⟩]
  | a, b => .error (errsOf a ++ errsOf b)

/-- Modelled from the spec: an explicit allocation heap for container values, so
that default-factory isolation (§3: a default-factory is invoked once per
validation call, never shared across instances) is observable. Each cell holds
a list of strings; `next` is the next fresh address. -/
structure Heap where
  cells : Nat → List String
  next : Nat

/-- Allocate a fresh cell holding `v`; returns the new address and heap. -/
def allocList (h : Heap) (v : List String) : Nat × Heap :=
  (h.next, ⟨fun i => if i = h.next then v else h.cells i, h.next + 1⟩)

/-- Overwrite the cell at address `r` (the caller mutating a container). -/
def heapWrite (h : Heap) (r : Nat) (v : List String) : Heap :=
  ⟨fun i => if i = r then v else h.cells i, h.next⟩

/-- A heap with no allocations. -/
def emptyHeap : Heap := ⟨fun _ => [], 0⟩

/-- The Cart record of src/Fields/problem5.py:
`items: List[str] = Field(default_factory=list)`,
`total: float = Field(default=0.0, ge=0)`. The items container is held by
reference into the allocation heap. -/
structure CartInst where
  itemsRef : Nat
  total : ℚ
deriving DecidableEq, Repr

/-- Modelled from the spec: the Model Pipeline for the Cart schema of
src/Fields/problem5.py, threaded through the allocation heap — when the raw
input omits `items` the default factory produces a fresh empty list for this
validation call; a supplied list is likewise copied into a fresh cell owned by
this call. -/
def validateCart (h : Heap) (input : List (String × RawValue)) :
    Except ValidationReport CartInst × Heap :=
  let rItems : Except (List ValidationError) (List String) :=
    match lookupField input "items" with
    | none => .ok []
    | some raw =>
        match coerceStrList raw with
        | none => .error [⟨["items"], .typeMismatch⟩]
        | some xs => .ok xs
  let rTotal := runFieldD input "total" (0 : ℚ) coerceFloat [geQ 0] []
  match rItems, rTotal with
  | .ok xs, .ok t =>
      match allocList h xs with
      | (r, h2) => (.ok ⟨r, t⟩, h2)
  | a, b => (.error (errsOf a ++ errsOf b), h)

/-- Spec-side description of a strict whole-string integer literal: either the
entire string is nonempty and all digits, or it is a minus sign followed by a
nonempty all-digit tail. Stated independently of `parseIntStrict` so the strict
coercion contract can be compared against it. -/
def IntLiteralShape (s : String) : Prop :=
  (s.toList ≠ [] ∧ s.toList.all Char.isDigit = true)
  ∨ (∃ rest, s.toList = '-' :: rest ∧ rest ≠ [] ∧ rest.all Char.isDigit = true)

/-- The string contains a run of `n` consecutive decimal digits somewhere inside
it (the "merely contains a matching substring" situation of the pattern-match
contract). -/
def ContainsDigitRun (n : Nat) (s : String) : Prop :=
  ∃ l m r, s.toList = l ++ m ++ r ∧ m.length = n ∧ ∀ c ∈ m, c.isDigit = true

lemma fullMatchDigits_iff (n : Nat) (s : String) :
    fullMatchDigits n s = true ↔ (s.length = n ∧ ∀ c ∈ s.toList, c.isDigit = true) := by
  simp [fullMatchDigits, List.all_eq_true]

/-- C1: for the Book schema, the valid example input is Accepted with the given
field values, and the input with price 2 is Rejected with exactly one
ConstraintViolation, at path ["price"], for the inclusive lower bound 10. -/
theorem book_concrete_scenario :
    validateBook [("title", RawValue.str "Beyond Good and Evil"),
        ("pages", RawValue.int 250), ("price", RawValue.int 100)]
      = .ok ⟨"Beyond Good and Evil", 250, 100⟩
    ∧ validateBook [("title", RawValue.str "ANY BOOK"),
        ("pages", RawValue.int 23), ("price", RawValue.int 2)]
      = .error [⟨["price"], .constraintViolation (.geRat 10)⟩] := by
  exact ⟨rfl, rfl⟩

/-- C2 counterexample: an input whose title violates min-length and whose pages
violates positivity, yet the report has three errors, not exactly two — the
price field also violates its range, so the claim as stated fails. -/
theorem book_two_violations_cex :
    ("ab".length < 3 ∧ (0 : Int) ≤ 0)
    ∧ validateBook [("title", RawValue.str "ab"), ("pages", RawValue.int 0),
        ("price", RawValue.float 2)]
      = .error [⟨["title"], .constraintViolation (.minLength 3)⟩,
                ⟨["pages"], .constraintViolation (.gtInt 0)⟩,
                ⟨["price"], .constraintViolation (.geRat 10)⟩] := by
  exact ⟨by decide, rfl⟩

/-- C6: for the Order schema, the input with items priced 200 and 50 but total
100 (all fields individually valid) is Rejected with exactly one whole-model
HookRejected error carrying no field path, and no instance is returned. -/
theorem order_hook_rejection :
    validateOrder [("order_id", RawValue.int 102),
        ("items", RawValue.list
          [RawValue.dict [("name", RawValue.str "Book"), ("price", RawValue.int 200)],
           RawValue.dict [("name", RawValue.str "Pen"), ("price", RawValue.int 50)]]),
        ("total", RawValue.int 100)]
      = .error [⟨[], .hookRejected "Total is less than the sum of items prices"⟩] := by
  rfl

/-- C7: every raw input to the Product schema — including mappings omitting the
name or price key — yields exactly one of a ModelInstance or a ValidationReport;
a failure inside the before-hook surfaces as a reported rejection, never as an
unhandled exception. -/
theorem product_totality :
    (∀ input, (∃ p, validateProduct input = .ok p) ∨ (∃ r, validateProduct input = .error r))
    ∧ validateProduct [("price", RawValue.int 5)]
        = .error [⟨[], .hookRejected "KeyError: name"⟩]
    ∧ validateProduct [("name", RawValue.str "x")]
        = .error [⟨[], .hookRejected "KeyError: price"⟩] := by
  refine ⟨fun input => ?_, rfl, rfl⟩
  cases h : validateProduct input with
  | ok p => exact Or.inl ⟨p, rfl⟩
  | error r => exact Or.inr ⟨r, rfl⟩

/-- C2 (amended): for every input to the Book schema whose title is a string
violating min-length, whose pages is a non-positive integer, and whose price is
a float satisfying its range constraints, the report contains exactly two
errors, one per violated field — neither failure suppresses the other. -/
theorem book_two_violations_amended (t : String) (p : Int) (q : ℚ)
    (ht : t.length < 3) (hp : p ≤ 0) (h10 : 10 ≤ q) (h1000 : q ≤ 1000) :
    validateBook [("title", RawValue.str t), ("pages", RawValue.int p),
        ("price", RawValue.float q)]
      = .error [⟨["title"], .constraintViolation (.minLength 3)⟩,
                ⟨["pages"], .constraintViolation (.gtInt 0)⟩] := by
  have hq1 : ¬ q < 10 := not_lt.mpr h10
  have hq2 : ¬ (1000 : ℚ) < q := not_lt.mpr h1000
  simp [validateBook, runField, lookupField, evalConstraints, coerceStr, coerceInt,
        coerceFloat, minLenStr, gtI, geQ, leQ, errsOf, runFieldHooks, ht, hp, hq1, hq2]

/-- Witness for the amended C2 statement at the concrete input
`{title: "ab", pages: 0, price: 100}`. -/
theorem book_two_violations_amended_witness :
    validateBook [("title", RawValue.str "ab"), ("pages", RawValue.int 0),
        ("price", RawValue.float 100)]
      = .error [⟨["title"], .constraintViolation (.minLength 3)⟩,
                ⟨["pages"], .constraintViolation (.gtInt 0)⟩] :=
  book_two_violations_amended "ab" 0 100 (by decide) (by decide) (by decide) (by decide)

/-- C3: for every Transaction input whose amount fails the `amount_check` field
validator and whose cross-field balance condition is also violated, the result
reports only the field-level amount error and never the cross-field
"Insufficient funds" rejection — the after-hook does not run on partially
invalid data. -/
theorem transaction_field_error_precedence (sb a rb : ℚ)
    (ha : a ≤ 0) (_hover : sb - a < 0) :
    validateTransaction [("sender_balance", RawValue.float sb),
        ("amount", RawValue.float a), ("receiver_balance", RawValue.float rb)]
      = .error [⟨["amount"], .hookRejected "Amount must be > 0"⟩]
    ∧ (⟨[], .hookRejected "Insufficient funds"⟩ : ValidationError) ∉
        errsOf (validateTransaction [("sender_balance", RawValue.float sb),
          ("amount", RawValue.float a), ("receiver_balance", RawValue.float rb)]) := by
  have h1 : validateTransaction [("sender_balance", RawValue.float sb),
      ("amount", RawValue.float a), ("receiver_balance", RawValue.float rb)]
      = .error [⟨["amount"], .hookRejected "Amount must be > 0"⟩] := by
    simp [validateTransaction, runField, lookupField, evalConstraints, coerceFloat,
          runFieldHooks, amountCheck, errsOf, ha]
  refine ⟨h1, ?_⟩
  rw [h1]
  simp [errsOf]

/-- Witness for C3 at the concrete input with sender_balance −5, amount −1 (so
the amount is non-positive and the balance condition is also violated). -/
theorem transaction_field_error_precedence_witness :
    validateTransaction [("sender_balance", RawValue.float (-5)),
        ("amount", RawValue.float (-1)), ("receiver_balance", RawValue.float 0)]
      = .error [⟨["amount"], .hookRejected "Amount must be > 0"⟩]
    ∧ (⟨[], .hookRejected "Insufficient funds"⟩ : ValidationError) ∉
        errsOf (validateTransaction [("sender_balance", RawValue.float (-5)),
          ("amount", RawValue.float (-1)), ("receiver_balance", RawValue.float 0)]) :=
  transaction_field_error_precedence (-5) (-1) 0 (by norm_num) (by norm_num)

/-- C4: the zip field's `\d{6}` pattern constraint is a full-string match — an
Address input is Accepted exactly when the zip string is six decimal digits in
its entirety, and a string that merely contains a six-digit run embedded in
longer text yields a ConstraintViolation (not an acceptance, and not a
coercion error). -/
theorem zip_full_match :
    (∀ st ct z : String,
        (∃ a, validateAddress [("street", RawValue.str st), ("city", RawValue.str ct),
            ("zip", RawValue.str z)] = .ok a)
        ↔ (z.length = 6 ∧ ∀ c ∈ z.toList, c.isDigit = true))
    ∧ (∀ st ct z : String, ContainsDigitRun 6 z → z.length ≠ 6 →
        validateAddress [("street", RawValue.str st), ("city", RawValue.str ct),
            ("zip", RawValue.str z)]
          = .error [⟨["zip"], .constraintViolation (.patternTag "\\d{6}")⟩]) := by
  constructor
  · intro st ct z
    rw [← fullMatchDigits_iff]
    cases h : fullMatchDigits 6 z with
    | true =>
        have hv : validateAddress [("street", RawValue.str st), ("city", RawValue.str ct),
            ("zip", RawValue.str z)] = .ok ⟨st, ct, z⟩ := by
          simp [validateAddress, runField, lookupField, evalConstraints, coerceStr,
                patternDigits6, runFieldHooks, errsOf, h]
        simp [hv]
    | false =>
        have hv : validateAddress [("street", RawValue.str st), ("city", RawValue.str ct),
            ("zip", RawValue.str z)]
            = .error [⟨["zip"], .constraintViolation (.patternTag "\\d{6}")⟩] := by
          simp [validateAddress, runField, lookupField, evalConstraints, coerceStr,
                patternDigits6, runFieldHooks, errsOf, h]
        simp [hv]
  · intro st ct z hrun hlen
    have hz : fullMatchDigits 6 z = false := by simp [fullMatchDigits, hlen]
    simp [validateAddress, runField, lookupField, evalConstraints, coerceStr,
          patternDigits6, runFieldHooks, errsOf, hz]

/-- Witness for C4 at the concrete zip "abc411001xyz", which contains the
six-digit run 411001 yet is rejected with a ConstraintViolation. -/
theorem zip_full_match_witness :
    validateAddress [("street", RawValue.str "MG Road"), ("city", RawValue.str "Pune"),
        ("zip", RawValue.str "abc411001xyz")]
      = .error [⟨["zip"], .constraintViolation (.patternTag "\\d{6}")⟩] :=
  zip_full_match.2 "MG Road" "Pune" "abc411001xyz"
    ⟨['a', 'b', 'c'], ['4', '1', '1', '0', '0', '1'], ['x', 'y', 'z'], rfl, rfl, by decide⟩
    (by decide)

/-- C5: for every User input whose nested address mapping carries an invalid
zip (and whose remaining fields are valid), the resulting error carries the
composed path ["address", "zip"] — the enclosing field name prefixed onto the
nested field's path. -/
theorem nested_zip_error_path (emailOk : String → Bool) (nm em st ct z : String)
    (hem : emailOk em = true) (hz : fullMatchDigits 6 z = false) :
    validateUser emailOk [("name", RawValue.str nm), ("email", RawValue.str em),
        ("address", RawValue.dict [("street", RawValue.str st), ("city", RawValue.str ct),
          ("zip", RawValue.str z)])]
      = .error [⟨["address", "zip"], .constraintViolation (.patternTag "\\d{6}")⟩] := by
  simp [validateUser, validateAddress, runField, runNestedField, lookupField, evalConstraints,
        coerceStr, patternDigits6, runFieldHooks, errsOf, hem, hz]

/-- Witness for C5 at a concrete User input with the too-short zip "4110". -/
theorem nested_zip_error_path_witness :
    validateUser (fun _ => true) [("name", RawValue.str "Harsh Patel"),
        ("email", RawValue.str "harsh@gmail.com"),
        ("address", RawValue.dict [("street", RawValue.str "MG Road"),
          ("city", RawValue.str "Pune"), ("zip", RawValue.str "4110")])]
      = .error [⟨["address", "zip"], .constraintViolation (.patternTag "\\d{6}")⟩] :=
  nested_zip_error_path (fun _ => true) "Harsh Patel" "harsh@gmail.com" "MG Road" "Pune"
    "4110" rfl (by decide)

lemma validateCart_omitted (hp : Heap) (input : List (String × RawValue))
    (hmiss : lookupField input "items" = none) (c : CartInst)
    (hc : (validateCart hp input).1 = .ok c) :
    c.itemsRef = hp.next ∧ (validateCart hp input).2.next = hp.next + 1 := by
  rcases hy : runFieldD input "total" (0 : ℚ) coerceFloat [geQ 0] [] with es | t
  · exfalso
    simp [validateCart, hmiss, hy] at hc
  · constructor
    · simp [validateCart, hmiss, hy, allocList] at hc
      rw [← hc]
    · simp [validateCart, hmiss, hy, allocList]

/-- C8: two successive Cart validations that both omit `items` receive two
distinct container instances from the default factory — writing through one
instance's items reference leaves the other instance's items cell unchanged,
in either direction. -/
theorem cart_default_isolation (hp : Heap) (in1 in2 : List (String × RawValue))
    (m1 : lookupField in1 "items" = none) (m2 : lookupField in2 "items" = none)
    (c1 c2 : CartInst)
    (e1 : (validateCart hp in1).1 = .ok c1)
    (e2 : (validateCart (validateCart hp in1).2 in2).1 = .ok c2) :
    c1.itemsRef ≠ c2.itemsRef
    ∧ (∀ v, (heapWrite ((validateCart (validateCart hp in1).2 in2).2) c1.itemsRef v).cells
          c2.itemsRef
        = ((validateCart (validateCart hp in1).2 in2).2).cells c2.itemsRef)
    ∧ (∀ v, (heapWrite ((validateCart (validateCart hp in1).2 in2).2) c2.itemsRef v).cells
          c1.itemsRef
        = ((validateCart (validateCart hp in1).2 in2).2).cells c1.itemsRef) := by
  obtain ⟨a1, n1⟩ := validateCart_omitted hp in1 m1 c1 e1
  obtain ⟨a2, _⟩ := validateCart_omitted _ in2 m2 c2 e2
  have hne : c1.itemsRef ≠ c2.itemsRef := by
    rw [a1, a2, n1]
    omega
  refine ⟨hne, fun v => ?_, fun v => ?_⟩
  · simp only [heapWrite]
    rw [if_neg (fun hh => hne hh.symm)]
  · simp only [heapWrite]
    rw [if_neg (fun hh => hne hh)]

/-- Witness for C8: starting from the empty heap, two validations of the empty
input allocate cells 0 and 1, and writing into cell 0 leaves cell 1 unchanged. -/
theorem cart_default_isolation_witness :
    ((⟨0, (0 : ℚ)⟩ : CartInst).itemsRef ≠ (⟨1, (0 : ℚ)⟩ : CartInst).itemsRef)
    ∧ (heapWrite ((validateCart (validateCart emptyHeap []).2 []).2)
        (⟨0, (0 : ℚ)⟩ : CartInst).itemsRef ["pencil"]).cells (⟨1, (0 : ℚ)⟩ : CartInst).itemsRef
      = ((validateCart (validateCart emptyHeap []).2 []).2).cells
          (⟨1, (0 : ℚ)⟩ : CartInst).itemsRef := by
  obtain ⟨h1, h2, h3⟩ :=
    cart_default_isolation emptyHeap [] [] rfl rfl ⟨0, 0⟩ ⟨1, 0⟩ rfl rfl
  exact ⟨h1, h2 ["pencil"]⟩

/-- C9: coercion into the int-declared fields Book.pages and Item.price is
strict and never lossy — a string coerces exactly when the whole string is an
integer literal, a float never implicitly converts to int, and supplying a
float (or a partially-parsing string) for pages or price is a TypeMismatch. -/
theorem strict_int_coercion :
    (∀ s : String, (∃ n, coerceInt (.str s) = some n) ↔ IntLiteralShape s)
    ∧ (∀ q : ℚ, coerceInt (.float q) = none)
    ∧ (∀ q : ℚ, validateBook [("title", RawValue.str "Beyond Good and Evil"),
        ("pages", RawValue.float q), ("price", RawValue.int 100)]
        = .error [⟨["pages"], .typeMismatch⟩])
    ∧ (∀ q : ℚ, validateItem [("name", RawValue.str "Pen"), ("price", RawValue.float q)]
        = .error [⟨["price"], .typeMismatch⟩])
    ∧ validateBook [("title", RawValue.str "Beyond Good and Evil"),
        ("pages", RawValue.str "12abc"), ("price", RawValue.int 100)]
        = .error [⟨["pages"], .typeMismatch⟩] := by
  refine ⟨?_, fun q => rfl, fun q => rfl, fun q => rfl, rfl⟩
  intro s
  unfold coerceInt parseIntStrict IntLiteralShape
  rcases hcs : s.data with _ | ⟨c, rest⟩
  · simp [String.toList, hcs]
  · by_cases hc : c = '-'
    · subst hc
      by_cases hrest : rest ≠ [] ∧ rest.all Char.isDigit = true
      · simp [String.toList, hcs, hrest]
        exact List.all_eq_true.mp hrest.2
      · simp [String.toList, hcs, hrest]
    · by_cases hall : (c :: rest).all Char.isDigit = true
      · simp [String.toList, hcs, hc, hall]
      · simp [String.toList, hcs, hc, hall]

/-- C10: every Accepted ShoppingList validation yields an instance whose
total_items equals the length of its items — the after-hook overwrites any
caller-supplied value. -/
theorem shopping_list_total_invariant (input : List (String × RawValue)) (s : ShoppingList)
    (h : validateShoppingList input = .ok s) :
    s.total_items = some ((s.items.length : Int)) := by
  simp only [validateShoppingList] at h
  rcases hx : runField input "items" coerceStrList [minLenList 2] [] with es | xs <;>
    rcases hy : runFieldD input "total_items" (none : Option Int) coerceOptInt [] [] with
      es2 | t0 <;>
    rw [hx, hy] at h <;> simp [setTotalItems] at h
  rw [← h]

/-- Witness for C10 at a concrete input that supplies a wrong total_items of 99
and three items; the accepted instance carries total_items = 3. -/
theorem shopping_list_total_invariant_witness :
    (⟨["milk", "bread", "butter"], some 3⟩ : ShoppingList).total_items
      = some (((⟨["milk", "bread", "butter"], some 3⟩ : ShoppingList).items.length : Int)) :=
  shopping_list_total_invariant
    [("items", RawValue.list [.str "milk", .str "bread", .str "butter"]),
     ("total_items", RawValue.int 99)]
    ⟨["milk", "bread", "butter"], some 3⟩ rfl

end PydanticSpec
